import Mathlib

/-!
Verification of the `sni-multiplexor` maintenance clients
(`session-reaper.py` and `active-formatter.py`).

The two scripts are Python 2 programs.  The embedding below translates the
relevant Python 2 primitives faithfully:

* `str.strip()`  — drops the Python whitespace characters from both ends;
* `str.split(sep, maxsplit)` with an explicit one-character separator —
  splits on every occurrence, never collapsing runs, with an optional
  bound on the number of splits (`"".split(sep)` yields `[""]`);
* `int(str)` — optional surrounding whitespace, optional sign, a nonempty
  run of ASCII decimal digits, and failure (`ValueError`) otherwise,
  modelled as `Option Int`;
* `a / b` and `a % b` on integers — floor division and sign-of-divisor
  modulus, i.e. `Int.fdiv` / `Int.fmod`;
* `timedelta` — normalised to a total number of microseconds.  The
  constructor `timedelta(days, seconds)` receives an integral `days` and a
  float `seconds`; the float detour is modelled by exact rational
  arithmetic followed by rounding to whole microseconds.  For every value
  the scripts construct, the real float (`(ms % 86400000) / 1000.0`, with
  `ms % 86400000 < 86400000 < 2^53`) differs from the exact rational by
  less than `2^-36` seconds, far below the half-microsecond rounding
  threshold, so the exact-rational model produces bit-for-bit the same
  normalised `timedelta` as CPython;
* comparing a `timedelta` against `None` — CPython 2's
  `default_3way_compare` makes `None` smaller than any other object, so
  `timedelta(...) < None` is `False`.

Fallible Python code (uncaught `ValueError` from tuple unpacking or
`int(...)`) is modelled with `Option`: `none` is an uncaught exception.
-/

/-- The characters removed by Python's `str.strip()`
(`string.whitespace`: space, tab, newline, carriage return, vertical tab,
form feed). -/
def pyIsSpace (c : Char) : Bool :=
  c = ' ' || c = '\t' || c = '\n' || c = '\r' || c = Char.ofNat 11 || c = Char.ofNat 12

/-- Python's `str.strip()` on the underlying character list. -/
def pyStripL (cs : List Char) : List Char :=
  ((cs.dropWhile pyIsSpace).reverse.dropWhile pyIsSpace).reverse

/-- Python's `str.strip()`. -/
def pyStrip (s : String) : String :=
  String.mk (pyStripL s.data)

/-- Python's `str.split(sep, maxsplit)` with a one-character separator,
on character lists.  `acc` is the current (reversed) token.  `maxsplit =
none` means unbounded.  Runs of separators are not collapsed, so splitting
the empty list yields one empty token, exactly as in Python. -/
def pySplitAux (sep : Char) : Option Nat → List Char → List Char → List (List Char)
  | _, acc, [] => [acc.reverse]
  | some 0, acc, rest => [acc.reverse ++ rest]
  | max, acc, c :: cs =>
    if c = sep then acc.reverse :: pySplitAux sep (max.map fun k => k - 1) [] cs
    else pySplitAux sep max (c :: acc) cs

/-- Python's `str.split(sep, maxsplit)` with a one-character separator. -/
def pySplitStr (sep : Char) (max : Option Nat) (s : String) : List String :=
  (pySplitAux sep max [] s.data).map String.mk

/-- Accumulate a nonempty run of ASCII digits; `none` on any non-digit. -/
def pyDigitsAux : List Char → Nat → Option Nat
  | [], acc => some acc
  | c :: cs, acc =>
    if c.isDigit then pyDigitsAux cs (acc * 10 + (c.toNat - 48)) else none

/-- Python 2's `int(str)`: optional surrounding whitespace, optional
sign, then a nonempty digit run; `none` models the `ValueError` raised on
anything else. -/
def pyInt (s : String) : Option Int :=
  match (pyStrip s).data with
  | [] => none
  | c :: cs =>
    if c = '-' then
      match cs with
      | [] => none
      | _ => (pyDigitsAux cs 0).map fun n => -(n : Int)
    else if c = '+' then
      match cs with
      | [] => none
      | _ => (pyDigitsAux cs 0).map fun n => (n : Int)
    else (pyDigitsAux (c :: cs) 0).map fun n => (n : Int)

/-- A Python `datetime.timedelta`, normalised to total microseconds
(CPython normalises to `(days, seconds, microseconds)`; the total
microsecond count is an equivalent presentation and carries the same
ordering). -/
structure Timedelta where
  us : Int
deriving DecidableEq, Repr

/-- `timedelta(days, seconds)` with integral `days` and (exact-rational
stand-in for) float `seconds`; CPython rounds the seconds argument to
whole microseconds during normalisation. -/
def timedelta (days : Int) (seconds : ℚ) : Timedelta :=
  ⟨days * 86400000000 + round (seconds * 1000000)⟩

/-- `timedelta(minutes=m)`. -/
def timedeltaMinutes (m : Int) : Timedelta :=
  ⟨m * 60 * 1000000⟩

/-- `timedelta(hours=h)`. -/
def timedeltaHours (h : Int) : Timedelta :=
  ⟨h * 3600 * 1000000⟩

/-- `timedelta` comparison (`<`), by total duration. -/
def tdLt (a b : Timedelta) : Bool :=
  a.us < b.us

/-- `timedelta.total_seconds()`-style exact total, in seconds. -/
def Timedelta.total_seconds (t : Timedelta) : ℚ :=
  (t.us : ℚ) / 1000000

/-- Exact total of a `timedelta` in milliseconds. -/
def Timedelta.total_ms (t : Timedelta) : ℚ :=
  (t.us : ℚ) / 1000

/-- `timedelta_from_ms` from both scripts:
`timedelta(ms / 86400000, (ms % 86400000) / 1000.0)` under Python 2
integer semantics (`/` = floor division, `%` = sign-of-divisor modulus). -/
def timedelta_from_ms (ms : Int) : Timedelta :=
  timedelta (Int.fdiv ms 86400000) ((Int.fmod ms 86400000 : ℚ) / 1000)

/-- A value stored in a session's `extras` dict: the expected-type table
can install parsed integers, everything else stays a raw string. -/
inductive ExtraVal
  | str (s : String)
  | int (n : Int)
deriving DecidableEq, Repr

/-- The `extra_types` table: maps a key to its declared parser, if any.
The two `*_ms` keys are declared numeric (`int`). -/
def extra_types (key : String) : Option (String → Option ExtraVal) :=
  if key = "session_age_ms" then some fun v => (pyInt v).map ExtraVal.int
  else if key = "last_xmit_ago_ms" then some fun v => (pyInt v).map ExtraVal.int
  else none

/-- The `Session` object: every attribute starts as `None` (here `none`)
and `extras` as an empty dict. -/
structure Session where
  session_id : Option String := none
  state : Option String := none
  local_sock_info : Option String := none
  extras : List (String × ExtraVal) := []
  session_age : Option Timedelta := none
  last_xmit_ago : Option Timedelta := none
  backend : Option String := none
deriving DecidableEq, Repr

/-- Python dict assignment `d[k] = v`: overwrite in place, else append. -/
def dictSet (d : List (String × ExtraVal)) (k : String) (v : ExtraVal) :
    List (String × ExtraVal) :=
  match d with
  | [] => [(k, v)]
  | (k0, v0) :: rest => if k0 = k then (k, v) :: rest else (k0, v0) :: dictSet rest k v

/-- Process one `key=value` token of the `rest` field (the body of the
`for kvpair in rest.split(' ')` loop).  `kvpair.split('=', 1)` is unpacked
into exactly two components; a token with no `=` yields a single-element
list, whose unpacking raises `ValueError` (modelled as `none`).  Likewise
`int(value)` raises on a non-numeric value for a numeric key. -/
def applyKV (sess : Session) (kvpair : String) : Option Session :=
  match pySplitStr '=' (some 1) kvpair with
  | [key, value] =>
    if key = "session_age_ms" then
      (pyInt value).map fun n => { sess with session_age := some (timedelta_from_ms n) }
    else if key = "last_xmit_ago_ms" then
      (pyInt value).map fun n => { sess with last_xmit_ago := some (timedelta_from_ms n) }
    else if key = "backend_name" then
      some { sess with backend := some value }
    else
      match extra_types key with
      | some conv => (conv value).map fun v => { sess with extras := dictSet sess.extras key v }
      | none => some { sess with extras := dictSet sess.extras key (ExtraVal.str value) }
  | _ => none

/-- Fold `applyKV` over the tokens of `rest`, propagating failure. -/
def parseKVs (sess : Session) : List String → Option Session
  | [] => some sess
  | kv :: toks => (applyKV sess kv).bind fun s => parseKVs s toks

/-- Decode the `parts` of one line (`line.split(' ', 3)`).
`some none` = the line is skipped (`len(parts) != 4` → `continue`);
`some (some s)` = the line decodes to record `s`;
`none` = an uncaught exception aborts the whole decode. -/
def parseParts : List String → Option (Option Session)
  | [session_id, state, local_sock_info, rest] =>
    (parseKVs
      { session_id := some session_id
        state := some state
        local_sock_info := some local_sock_info }
      (pySplitStr ' ' none rest)).map some
  | _ => some none

/-- Decode one (already stripped, non-`END`) line. -/
def parseLine (l : String) : Option (Option Session) :=
  parseParts (pySplitStr ' ' (some 3) l)

/-- `load_sessions`: strip each line, stop at `END` (consuming it),
skip short lines, decode the others in order; an uncaught exception from
`parseLine` aborts the whole decode (`none`). -/
def loadSessions : List String → Option (List Session)
  | [] => some []
  | line :: rest =>
    let l := pyStrip line
    if l = "END" then some []
    else
      match parseLine l with
      | none => none
      | some none => loadSessions rest
      | some (some s) => (loadSessions rest).map fun out => s :: out

/-- The record (if any) contributed by one input line, viewing a decode
error as contributing nothing; used only to state order preservation
under a no-error hypothesis. -/
def lineRecord (l : String) : Option Session :=
  match parseLine (pyStrip l) with
  | some r => r
  | none => none

/-- Python 2 evaluation of `td < sess.last_xmit_ago` where the attribute
may still be `None`: CPython 2's fallback comparison makes `None` smaller
than any other object, so the comparison is `False` when the attribute
was never set. -/
def tdLtOpt (a : Timedelta) : Option Timedelta → Bool
  | none => false
  | some b => tdLt a b

/-- The first reaper rule (`session-reaper.py`, first loop of `main`):
`sess.state == 'shutdown-write' and timedelta(minutes=10) < sess.last_xmit_ago`. -/
def shutdownWriteStale (s : Session) : Bool :=
  s.state == some "shutdown-write" && tdLtOpt (timedeltaMinutes 10) s.last_xmit_ago

/-- The second reaper rule (`session-reaper.py`, second loop of `main`):
`sess.state == 'connected' and timedelta(hours=1) < sess.last_xmit_ago`. -/
def connectedStale (s : Session) : Bool :=
  s.state == some "connected" && tdLtOpt (timedeltaHours 1) s.last_xmit_ago

/-- A record is selected for destruction when either rule selects it. -/
def selectedForDestruction (s : Session) : Bool :=
  shutdownWriteStale s || connectedStale s

/-- `print_session`: unpacks `sess.local_sock_info.split(',', 1)` into
exactly two components (raising `ValueError`, i.e. `none`, when the field
holds no comma, or `AttributeError` when it is still `None`), then writes
one formatted table row.  The successful result is the
`(local_bind, client_ip)` pair the row is rendered from. -/
def printSession (s : Session) : Option (String × String) :=
  match s.local_sock_info with
  | none => none
  | some info =>
    match pySplitStr ',' (some 1) info with
    | [local_bind, client_ip] => some (local_bind, client_ip)
    | _ => none

/-- Observable events of one reaper run: a table row printed for a
session, and a `destroy-session <id>` command issued on the management
channel. -/
inductive Event
  | printRow (s : Session)
  | destroyCmd (id : Option String)
deriving DecidableEq, Repr

/-- Outcome of one `destroy_session` call, decided by the environment:
`ok response exitCode` — the helper process ran to completion (the script
reads and discards `response` and never inspects `exitCode`); `raise` —
a Python-level failure (the helper cannot be spawned, or writing the
command raises), which propagates out of `main`. -/
inductive DestroyOutcome
  | ok (response : String) (exitCode : Int)
  | raise
deriving DecidableEq, Repr

/-- One `for sess in sessions` loop of `main`: for each record matched by
`pred`, print it, then issue the destroy command.  `n` numbers the
destroy calls (the environment `env` decides each call's outcome).
Returns the events emitted, the next call number, and whether the loop
completed without an exception; a raised exception stops everything
immediately.  A failing `print_session` raises before anything is
emitted for that record; a raising `destroy_session` leaves the command
unissued. -/
def runPass (env : Nat → DestroyOutcome) (pred : Session → Bool) :
    List Session → Nat → List Event × Nat × Bool
  | [], n => ([], n, true)
  | s :: rest, n =>
    if pred s then
      match printSession s with
      | none => ([], n, false)
      | some _ =>
        match env n with
        | DestroyOutcome.raise => ([Event.printRow s], n + 1, false)
        | DestroyOutcome.ok _ _ =>
          let r := runPass env pred rest (n + 1)
          (Event.printRow s :: Event.destroyCmd s.session_id :: r.1, r.2.1, r.2.2)
    else runPass env pred rest n

/-- `main` of `session-reaper.py`, after the snapshot has been decoded:
the shutdown-write pass over the snapshot, then (if no exception was
raised) the connected pass over the same snapshot.  Returns the events
of the run and whether it completed. -/
def reaperMain (env : Nat → DestroyOutcome) (sessions : List Session) :
    List Event × Bool :=
  let r1 := runPass env shutdownWriteStale sessions 0
  if r1.2.2 then
    let r2 := runPass env connectedStale sessions r1.2.1
    (r1.1 ++ r2.1, r2.2.2)
  else (r1.1, false)

/-- The declarative per-pass event trace: each record selected by `pred`,
in snapshot order, contributes its printed row followed by its destroy
command. -/
def passTrace (pred : Session → Bool) (sessions : List Session) : List Event :=
  (sessions.filter pred).flatMap fun s => [Event.printRow s, Event.destroyCmd s.session_id]

/-- Project the destroyed id out of an event, if it is a destroy. -/
def destroyedId : Event → Option (Option String)
  | Event.destroyCmd id => some id
  | Event.printRow _ => none

/-- The comparison `sorted(v, key=key)` sorts by: `key x <= key y`. -/
def keyLe {α : Type} {κ : Type} [LinearOrder κ] (key : α → κ) (x y : α) : Bool :=
  decide (key x ≤ key y)

/-- Python's `sorted(v, key=key, reverse=rev)`.  Python's sort is a
stable mergesort; CPython implements `reverse=True` by reversing the
list, running the stable ascending sort, and reversing again —
descending order with ties kept in original order. -/
def pySorted {α : Type} {κ : Type} [LinearOrder κ] (key : α → κ) (rev : Bool)
    (v : List α) : List α :=
  if rev then (v.reverse.mergeSort (keyLe key)).reverse
  else v.mergeSort (keyLe key)

/-- `expr.startswith('-')`. -/
def pyStartsWithDash (s : String) : Bool :=
  match s.data with
  | c :: _ => c = '-'
  | [] => false

/-- `expr[1:]`. -/
def pyDropFirst (s : String) : String :=
  String.mk s.data.tail

/-- The sort expression's field name: a leading `-` is stripped. -/
def exprField (expr : String) : String :=
  if pyStartsWithDash expr then pyDropFirst expr else expr

/-- `sorted_from_expr` of `active-formatter.py`: a leading `-` on the
expression selects descending order, and the remainder names the record
field; `getter` stands for `operator.attrgetter`'s resolution of a field
name to an accessor. -/
def sorted_from_expr {α : Type} {κ : Type} [LinearOrder κ]
    (getter : String → α → κ) (v : List α) (expr : String) : List α :=
  if pyStartsWithDash expr then pySorted (getter (pyDropFirst expr)) true v
  else pySorted (getter expr) false v

/-- A connected record one millisecond past the one-hour threshold. -/
def sessJustStale : Session :=
  { state := some "connected", last_xmit_ago := some (timedelta_from_ms 3600001) }

/-- The tokens of `rest` the decode cannot survive: a token with no `=`
(the two-way tuple unpacking raises), or a key declared numeric
(`session_age_ms` / `last_xmit_ago_ms`) whose value `int(...)` rejects. -/
def badKVToken (tok : String) : Bool :=
  match pySplitStr '=' (some 1) tok with
  | [key, value] =>
    (key == "session_age_ms" || key == "last_xmit_ago_ms") && (pyInt value).isNone
  | _ => true

/-- An environment in which every destroy call completes. -/
def okEnv : Nat → DestroyOutcome := fun _ => DestroyOutcome.ok "" 0

/-- A stale shutdown-write record (`last_xmit_ago` of 700 s, i.e. the
decode of `last_xmit_ago_ms=700000`, stated in microseconds). -/
def sessSWStale : Session :=
  { session_id := some "b", state := some "shutdown-write",
    local_sock_info := some "10.0.0.1:443,203.0.113.7",
    last_xmit_ago := some { us := 700000000 } }

/-- A stale connected record (`last_xmit_ago` of 3700 s, i.e. the decode
of `last_xmit_ago_ms=3700000`, stated in microseconds). -/
def sessConnStale : Session :=
  { session_id := some "a", state := some "connected",
    local_sock_info := some "10.0.0.1:443,203.0.113.5",
    last_xmit_ago := some { us := 3700000000 } }

/-- An environment in which every destroy call raises (e.g. the relay
process can no longer be spawned). -/
def raiseEnv : Nat → DestroyOutcome := fun _ => DestroyOutcome.raise

/-- An environment in which every destroy call completes but reports an
in-band failure. -/
def inbandFailEnv : Nat → DestroyOutcome := fun _ => DestroyOutcome.ok "no such session" 1

/-- A second stale shutdown-write record. -/
def sessSWStale2 : Session :=
  { session_id := some "b2", state := some "shutdown-write",
    local_sock_info := some "10.0.0.2:443,203.0.113.8",
    last_xmit_ago := some { us := 800000000 } }

/-- A connected record with no decoded `last_xmit_ago`. -/
def sessNoXmit : Session :=
  { session_id := some "n", state := some "connected",
    local_sock_info := some "10.0.0.3:443,203.0.113.9" }

/-- The field accessor used by the C8 witness: every field name resolves
to the first projection. -/
def pairFst : String → Nat × Nat → Nat := fun _ p => p.1

/-- The concrete snapshot used by the C8 witness. -/
def pairList : List (Nat × Nat) := [(1, 0), (2, 0), (1, 1), (0, 0), (2, 1)]

/-- The decoded `timedelta` always totals exactly `1000 * ms`
microseconds: the day/second split loses nothing. -/
theorem timedelta_from_ms_us (t : Int) : (timedelta_from_ms t).us = 1000 * t := by
  unfold timedelta_from_ms timedelta
  have h1 : ((Int.fmod t 86400000 : ℤ) : ℚ) / 1000 * 1000000
      = ((1000 * Int.fmod t 86400000 : ℤ) : ℚ) := by
    push_cast
    ring
  rw [h1, round_intCast]
  show Int.fdiv t 86400000 * 86400000000 + 1000 * Int.fmod t 86400000 = 1000 * t
  have h2 := Int.fdiv_add_fmod t 86400000
  linarith

/-- C2: for every non-negative integer `ms`, the decoded duration equals
`floor(ms / 86400000)` whole days plus `(ms mod 86400000) / 1000` seconds
(as exact duration arithmetic), and its total milliseconds, rounded,
equals `ms`. -/
theorem c2_decode_duration_exact (ms : Nat) :
    (timedelta_from_ms (ms : Int)).total_seconds
      = ((ms / 86400000 : Nat) : ℚ) * 86400 + ((ms % 86400000 : Nat) : ℚ) / 1000
    ∧ round ((timedelta_from_ms (ms : Int)).total_ms) = (ms : Int) := by
  have hus := timedelta_from_ms_us (ms : Int)
  have hdm : 86400000 * ((ms / 86400000 : Nat) : ℚ) + ((ms % 86400000 : Nat) : ℚ)
      = (ms : ℚ) := by
    exact_mod_cast congrArg (fun n : Nat => (n : ℚ)) (Nat.div_add_mod ms 86400000)
  constructor
  · unfold Timedelta.total_seconds
    rw [hus]
    push_cast
    field_simp
    linarith
  · unfold Timedelta.total_ms
    rw [hus]
    have h3 : ((1000 * (ms : Int) : ℤ) : ℚ) / 1000 = (((ms : Int) : ℤ) : ℚ) := by
      push_cast
      ring
    rw [h3, round_intCast]

/-- C1: staleness selection depends only on `(state, last_xmit_ago)`,
and a record whose `last_xmit_ago` decoded from `t` milliseconds is
selected exactly when its state is `shutdown-write` with `t` strictly
above 10 minutes (600000 ms), or `connected` with `t` strictly above
1 hour (3600000 ms); a record exactly at a threshold is not selected. -/
theorem c1_staleness_selection (s : Session) :
    (∀ s' : Session, s'.state = s.state → s'.last_xmit_ago = s.last_xmit_ago →
        selectedForDestruction s' = selectedForDestruction s)
    ∧ ∀ t : Int, s.last_xmit_ago = some (timedelta_from_ms t) →
        (selectedForDestruction s = true ↔
          (s.state = some "shutdown-write" ∧ 600000 < t) ∨
          (s.state = some "connected" ∧ 3600000 < t)) := by
  constructor
  · intro s' h1 h2
    simp only [selectedForDestruction, shutdownWriteStale, connectedStale, h1, h2]
  · intro t ht
    have hus := timedelta_from_ms_us t
    simp only [selectedForDestruction, shutdownWriteStale, connectedStale, ht, tdLtOpt, tdLt,
      timedeltaMinutes, timedeltaHours, hus, Bool.or_eq_true, Bool.and_eq_true, beq_iff_eq,
      decide_eq_true_eq]
    constructor
    · rintro (⟨h, ht'⟩ | ⟨h, ht'⟩)
      · exact Or.inl ⟨h, by omega⟩
      · exact Or.inr ⟨h, by omega⟩
    · rintro (⟨h, ht'⟩ | ⟨h, ht'⟩)
      · exact Or.inl ⟨h, by omega⟩
      · exact Or.inr ⟨h, by omega⟩

/-- Witness for C1 at a concrete record: selected one millisecond past
the one-hour threshold. -/
theorem c1_staleness_selection_witness :
    selectedForDestruction sessJustStale = true :=
  ((c1_staleness_selection sessJustStale).2 3600001 rfl).mpr (Or.inr ⟨rfl, by norm_num⟩)

/-- Unfolding `loadSessions` at a terminator line. -/
theorem loadSessions_cons_end (line : String) (rest : List String)
    (h : pyStrip line = "END") : loadSessions (line :: rest) = some [] := by
  simp [loadSessions, h]

/-- Unfolding `loadSessions` at a non-terminator line. -/
theorem loadSessions_cons_of_ne (line : String) (rest : List String)
    (h : pyStrip line ≠ "END") :
    loadSessions (line :: rest) =
      match parseLine (pyStrip line) with
      | none => none
      | some none => loadSessions rest
      | some (some s) => (loadSessions rest).map fun out => s :: out := by
  simp [loadSessions, h]

/-- Lines after the first `END` terminator are never consulted. -/
theorem loadSessions_append_end : ∀ (pre suf : List String) (e : String),
    (∀ l ∈ pre, pyStrip l ≠ "END") → pyStrip e = "END" →
    loadSessions (pre ++ e :: suf) = loadSessions pre
  | [], suf, e, _, h2 => by
    rw [List.nil_append, loadSessions_cons_end e suf h2]
    rfl
  | a :: pre, suf, e, h1, h2 => by
    have ha : pyStrip a ≠ "END" := h1 a (List.mem_cons_self a pre)
    have ih := loadSessions_append_end pre suf e
      (fun l hl => h1 l (List.mem_cons_of_mem a hl)) h2
    rw [List.cons_append, loadSessions_cons_of_ne a _ ha, loadSessions_cons_of_ne a _ ha, ih]

/-- When no line terminates or aborts the decode, the result collects the
per-line records in input order. -/
theorem loadSessions_filterMap : ∀ (pre : List String),
    (∀ l ∈ pre, pyStrip l ≠ "END") → (∀ l ∈ pre, parseLine (pyStrip l) ≠ none) →
    loadSessions pre = some (pre.filterMap lineRecord)
  | [], _, _ => rfl
  | a :: pre, h1, h2 => by
    have ha : pyStrip a ≠ "END" := h1 a (List.mem_cons_self a pre)
    have he : parseLine (pyStrip a) ≠ none := h2 a (List.mem_cons_self a pre)
    have ih := loadSessions_filterMap pre
      (fun l hl => h1 l (List.mem_cons_of_mem a hl))
      (fun l hl => h2 l (List.mem_cons_of_mem a hl))
    rw [loadSessions_cons_of_ne a _ ha]
    cases hp : parseLine (pyStrip a) with
    | none => exact absurd hp he
    | some o =>
      cases o with
      | none =>
        rw [ih]
        simp [List.filterMap_cons, lineRecord, hp]
      | some s =>
        rw [ih]
        simp [List.filterMap_cons, lineRecord, hp]

/-- C3: decoding stops at the first stripped line equal to `END` — that
line produces no record and nothing after it is consulted — and, when no
earlier line aborts the decode, the records of the earlier lines appear
in input order. -/
theorem c3_end_terminator (pre suf : List String) (e : String)
    (h1 : ∀ l ∈ pre, pyStrip l ≠ "END") (h2 : pyStrip e = "END") :
    loadSessions (pre ++ e :: suf) = loadSessions pre
    ∧ ((∀ l ∈ pre, parseLine (pyStrip l) ≠ none) →
        loadSessions pre = some (pre.filterMap lineRecord)) :=
  ⟨loadSessions_append_end pre suf e h1 h2,
   fun herr => loadSessions_filterMap pre h1 herr⟩

/-- Witness for C3 on a concrete listing: a record line and a junk line
before ` END `, arbitrary garbage after it. -/
theorem c3_end_terminator_witness :
    loadSessions
        ["a1 connected 10.0.0.1:443,203.0.113.5 last_xmit_ago_ms=3700000\n",
         "short\n", " END \n", "zz zz zz zz"]
      = some (["a1 connected 10.0.0.1:443,203.0.113.5 last_xmit_ago_ms=3700000\n",
         "short\n"].filterMap lineRecord) := by
  have h := c3_end_terminator
    ["a1 connected 10.0.0.1:443,203.0.113.5 last_xmit_ago_ms=3700000\n", "short\n"]
    ["zz zz zz zz"] " END \n" (by decide) (by decide)
  rw [List.cons_append, List.cons_append, List.nil_append] at h
  rw [h.1]
  exact h.2 (by decide)

/-- A split bounded by `maxsplit = k` yields at most `k + 1` fields. -/
theorem pySplitAux_length_le (sep : Char) : ∀ (cs : List Char) (k : Nat) (acc : List Char),
    (pySplitAux sep (some k) acc cs).length ≤ k + 1
  | [], _, acc => by simp [pySplitAux]
  | c :: cs, 0, acc => by simp [pySplitAux]
  | c :: cs, k + 1, acc => by
    by_cases h : c = sep
    · have ih := pySplitAux_length_le sep cs k []
      simp only [pySplitAux, h, if_true, List.length_cons, Option.map_some',
        Nat.add_sub_cancel]
      omega
    · have ih := pySplitAux_length_le sep cs (k + 1) (c :: acc)
      simp only [pySplitAux, h, if_false]
      simpa using ih

/-- `line.split(' ', 3)` yields at most four fields. -/
theorem pySplitStr_length_le (sep : Char) (k : Nat) (s : String) :
    (pySplitStr sep (some k) s).length ≤ k + 1 := by
  unfold pySplitStr
  rw [List.length_map]
  exact pySplitAux_length_le sep s.data k []

/-- Fewer than four parts: the line is skipped, not decoded. -/
theorem parseParts_short : ∀ (parts : List String), parts.length < 4 →
    parseParts parts = some none
  | [], _ => rfl
  | [_], _ => rfl
  | [_, _], _ => rfl
  | [_, _, _], _ => rfl
  | _ :: _ :: _ :: _ :: _, h => by simp at h; omega

/-- C4: a line whose stripped form splits into fewer than four
single-space-delimited top-level fields is skipped — it raises nothing,
contributes no record, and decoding continues with the remaining lines.
(The split is bounded by three, so "fewer than four" is the only way the
count can differ from four.) -/
theorem c4_short_line_skipped (line : String) (rest : List String)
    (h1 : pyStrip line ≠ "END")
    (h2 : (pySplitStr ' ' (some 3) (pyStrip line)).length < 4) :
    parseLine (pyStrip line) = some none
    ∧ loadSessions (line :: rest) = loadSessions rest := by
  have hp : parseLine (pyStrip line) = some none := by
    unfold parseLine
    exact parseParts_short _ h2
  refine ⟨hp, ?_⟩
  rw [loadSessions_cons_of_ne line rest h1, hp]

/-- Witness for C4 at a concrete two-field line. -/
theorem c4_short_line_skipped_witness :
    parseLine (pyStrip "too short\n") = some none
    ∧ loadSessions ["too short\n", "END"] = loadSessions ["END"] := by
  have h := c4_short_line_skipped "too short\n" ["END"] (by decide) (by decide)
  exact h

/-- `applyKV` fails exactly on bad tokens, independent of the record
being built. -/
theorem applyKV_none_iff (sess : Session) (tok : String) :
    applyKV sess tok = none ↔ badKVToken tok = true := by
  unfold applyKV badKVToken
  cases hsp : pySplitStr '=' (some 1) tok with
  | nil => simp
  | cons key tl =>
    cases tl with
    | nil => simp
    | cons value tl2 =>
      cases tl2 with
      | nil =>
        by_cases h1 : key = "session_age_ms"
        · simp [h1, Option.map_eq_none', Option.isNone_iff_eq_none]
        · by_cases h2 : key = "last_xmit_ago_ms"
          · simp [h1, h2, Option.map_eq_none', Option.isNone_iff_eq_none]
          · by_cases h3 : key = "backend_name"
            · simp [h1, h2, h3]
            · simp [extra_types, h1, h2, h3]
      | cons c tl3 => simp

/-- The `rest`-token fold fails exactly when some token is bad. -/
theorem parseKVs_none_iff (toks : List String) : ∀ (sess : Session),
    parseKVs sess toks = none ↔ ∃ tok ∈ toks, badKVToken tok = true := by
  induction toks with
  | nil => intro sess; simp [parseKVs]
  | cons kv toks ih =>
    intro sess
    simp only [parseKVs]
    cases happ : applyKV sess kv with
    | none =>
      have hbad : badKVToken kv = true := (applyKV_none_iff sess kv).mp happ
      simp [hbad]
    | some s' =>
      have hgood : ¬ badKVToken kv = true := by
        intro hb
        have hn := (applyKV_none_iff sess kv).mpr hb
        rw [hn] at happ
        cases happ
      rw [Option.some_bind, ih s']
      simp [hgood]

/-- A bad token anywhere in a four-field line's `rest` makes the whole
line's decode raise. -/
theorem parseLine_none_of_bad (l a b c rest : String)
    (hsplit : pySplitStr ' ' (some 3) l = [a, b, c, rest])
    (hbad : ∃ tok ∈ pySplitStr ' ' none rest, badKVToken tok = true) :
    parseLine l = none := by
  unfold parseLine
  rw [hsplit]
  unfold parseParts
  exact Option.map_eq_none'.mpr ((parseKVs_none_iff _ _).mpr hbad)

/-- A raising line aborts the whole decode, regardless of what clean
lines came before or what follows. -/
theorem loadSessions_none_propagates : ∀ (pre : List String) (line : String)
    (suf : List String),
    (∀ l ∈ pre, pyStrip l ≠ "END" ∧ parseLine (pyStrip l) ≠ none) →
    pyStrip line ≠ "END" → parseLine (pyStrip line) = none →
    loadSessions (pre ++ line :: suf) = none
  | [], line, suf, _, hne, herr => by
    rw [List.nil_append, loadSessions_cons_of_ne line suf hne, herr]
  | a :: pre, line, suf, hpre, hne, herr => by
    obtain ⟨ha1, ha2⟩ := hpre a (List.mem_cons_self a pre)
    have ih := loadSessions_none_propagates pre line suf
      (fun l hl => hpre l (List.mem_cons_of_mem a hl)) hne herr
    rw [List.cons_append, loadSessions_cons_of_ne a _ ha1]
    cases hp : parseLine (pyStrip a) with
    | none => exact absurd hp ha2
    | some o =>
      cases o with
      | none => exact ih
      | some s =>
        rw [ih]
        rfl

/-- C6: a `key=value` token in `rest` with no `=`, or a non-numeric
value under a numeric key (`session_age_ms`, `last_xmit_ago_ms`), is
never skipped: the line's decode raises and the whole decode aborts. -/
theorem c6_malformed_token_fatal (line a b c rest tok : String)
    (pre suf : List String)
    (hsplit : pySplitStr ' ' (some 3) (pyStrip line) = [a, b, c, rest])
    (htok : tok ∈ pySplitStr ' ' none rest)
    (hbad : badKVToken tok = true)
    (hend : pyStrip line ≠ "END")
    (hpre : ∀ l ∈ pre, pyStrip l ≠ "END" ∧ parseLine (pyStrip l) ≠ none) :
    parseLine (pyStrip line) = none
    ∧ loadSessions (pre ++ line :: suf) = none := by
  have h1 : parseLine (pyStrip line) = none :=
    parseLine_none_of_bad (pyStrip line) a b c rest hsplit ⟨tok, htok, hbad⟩
  exact ⟨h1, loadSessions_none_propagates pre line suf hpre hend h1⟩

/-- Witness for C6: a non-numeric `last_xmit_ago_ms` aborts the decode
even though a clean record line precedes it and `END` follows. -/
theorem c6_malformed_token_fatal_witness :
    parseLine (pyStrip "i2 connected 1.2.3.4:443,5.6.7.8 last_xmit_ago_ms=xyz\n") = none
    ∧ loadSessions
        ["a1 connected 10.0.0.1:443,203.0.113.5 backend_name=b1\n",
         "i2 connected 1.2.3.4:443,5.6.7.8 last_xmit_ago_ms=xyz\n",
         "END"]
      = none := by
  have h := c6_malformed_token_fatal
    "i2 connected 1.2.3.4:443,5.6.7.8 last_xmit_ago_ms=xyz\n"
    "i2" "connected" "1.2.3.4:443,5.6.7.8" "last_xmit_ago_ms=xyz"
    "last_xmit_ago_ms=xyz"
    ["a1 connected 10.0.0.1:443,203.0.113.5 backend_name=b1\n"] ["END"]
    (by decide) (by decide) (by decide) (by decide) (by decide)
  exact h

/-- C9 counterexample: a line whose fourth field is the empty string
(`"a b c ".split(' ', 3)` yields `["a","b","c",""]`) does not decode to
a record with zero extras — its decode raises, because `rest.split(' ')`
yields one empty token, whose `split('=', 1)` unpacking fails. -/
theorem c9_counterexample :
    pySplitStr ' ' (some 3) "a b c " = ["a", "b", "c", ""]
    ∧ parseLine "a b c " = none := by
  constructor
  · decide
  · decide

/-- C9 as amended: an empty `rest` field makes the whole line decode
raise (the lone empty token from splitting `""` contains no `=`) rather
than yielding a record with zero extra attributes. -/
theorem c9_empty_rest_fatal (sess : Session) (l a b c : String)
    (h : pySplitStr ' ' (some 3) l = [a, b, c, ""]) :
    parseKVs sess (pySplitStr ' ' none "") = none ∧ parseLine l = none := by
  constructor
  · rfl
  · exact parseLine_none_of_bad l a b c "" h ⟨"", by decide, by decide⟩

/-- Witness for the amended C9 at the concrete line of the
counterexample. -/
theorem c9_empty_rest_fatal_witness :
    parseKVs {} (pySplitStr ' ' none "") = none ∧ parseLine "a b c " = none :=
  c9_empty_rest_fatal {} "a b c " "a" "b" "c" (by decide)

/-- When no destroy call raises and every selected record prints, one
pass emits exactly the declarative trace and completes, consuming one
destroy call per selected record. -/
theorem runPass_no_raise (env : Nat → DestroyOutcome) (pred : Session → Bool)
    (henv : ∀ k, env k ≠ DestroyOutcome.raise) :
    ∀ (sessions : List Session) (n : Nat),
    (∀ s ∈ sessions, pred s = true → printSession s ≠ none) →
    runPass env pred sessions n
      = (passTrace pred sessions, n + (sessions.filter pred).length, true)
  | [], n, _ => by simp [runPass, passTrace]
  | s :: rest, n, hp => by
    by_cases hps : pred s = true
    · have hpr : printSession s ≠ none :=
        hp s (List.mem_cons_self s rest) hps
      cases hpp : printSession s with
      | none => exact absurd hpp hpr
      | some pr =>
        cases he : env n with
        | raise => exact absurd he (henv n)
        | ok r c =>
          have ih := runPass_no_raise env pred henv rest (n + 1)
            (fun x hx => hp x (List.mem_cons_of_mem s hx))
          simp only [runPass, hps, if_true, hpp, he, ih, passTrace, List.filter_cons,
            List.flatMap_cons, List.length_cons, Prod.mk.injEq]
          refine ⟨rfl, by omega, trivial⟩
    · have hps' : pred s = false := by
        revert hps
        cases pred s <;> simp
      have ih := runPass_no_raise env pred henv rest n
        (fun x hx => hp x (List.mem_cons_of_mem s hx))
      simp [runPass, hps', ih, passTrace, List.filter_cons]

/-- C5: with no exception in the run (no destroy call raises and every
selected record's `local_sock_info` splits for printing), the reaper
acts as two independent passes over the one decoded snapshot: first
every stale shutdown-write record in snapshot order, then every stale
connected record in snapshot order, each record's row printed
immediately before its destroy command is issued. -/
theorem c5_two_independent_passes (env : Nat → DestroyOutcome)
    (sessions : List Session)
    (henv : ∀ k, env k ≠ DestroyOutcome.raise)
    (hp : ∀ s ∈ sessions, selectedForDestruction s = true → printSession s ≠ none) :
    reaperMain env sessions
      = ((sessions.filter shutdownWriteStale ++ sessions.filter connectedStale).flatMap
          (fun s => [Event.printRow s, Event.destroyCmd s.session_id]), true) := by
  have hp1 : ∀ s ∈ sessions, shutdownWriteStale s = true → printSession s ≠ none := by
    intro s hs h
    exact hp s hs (by simp [selectedForDestruction, h])
  have hp2 : ∀ s ∈ sessions, connectedStale s = true → printSession s ≠ none := by
    intro s hs h
    exact hp s hs (by simp [selectedForDestruction, h])
  have h1 := runPass_no_raise env shutdownWriteStale henv sessions 0 hp1
  have h2 := runPass_no_raise env connectedStale henv sessions
    (0 + (sessions.filter shutdownWriteStale).length) hp2
  unfold reaperMain
  rw [h1]
  simp only [if_true]
  rw [h2]
  rw [List.flatMap_append]
  rfl

/-- Witness for C5: the shutdown-write record is handled before the
connected record even though it appears after it in the snapshot, and
each row precedes its destroy command. -/
theorem c5_two_independent_passes_witness :
    reaperMain okEnv [sessConnStale, sessSWStale]
      = ([Event.printRow sessSWStale, Event.destroyCmd (some "b"),
          Event.printRow sessConnStale, Event.destroyCmd (some "a")], true) := by
  have h := c5_two_independent_passes okEnv [sessConnStale, sessSWStale]
    (fun k => by simp [okEnv]) (by decide)
  rw [h]
  decide

/-- C7 counterexample: with two selected shutdown-write records, a
raising destroy call for the first aborts the run — the second selected
record's destroy command is never issued, so the reaper does not
continue past this kind of failure. -/
theorem c7_counterexample :
    shutdownWriteStale sessSWStale = true
    ∧ shutdownWriteStale sessSWStale2 = true
    ∧ (reaperMain raiseEnv [sessSWStale, sessSWStale2]).1 = [Event.printRow sessSWStale]
    ∧ Event.destroyCmd sessSWStale2.session_id ∉
        (reaperMain raiseEnv [sessSWStale, sessSWStale2]).1 := by
  refine ⟨by decide, by decide, by decide, by decide⟩

/-- The fold of `destroyedId` over a per-record block trace. -/
theorem passTrace_destroyedId (m : List Session) :
    ((m.flatMap fun s => [Event.printRow s, Event.destroyCmd s.session_id]).filterMap
        destroyedId)
      = m.map Session.session_id := by
  induction m with
  | nil => rfl
  | cons s rest ih => simp [List.flatMap_cons, List.filterMap_cons, destroyedId, ih]

/-- C7 as amended: the script never inspects a destroy call's response
text or exit status, so destroy failures reported in-band never stop the
loop — one destroy command is still issued per selected record, in
order, and the run completes; only a Python-level raise aborts the run
(see the counterexample). -/
theorem c7_destroy_continues_inband (env : Nat → DestroyOutcome)
    (sessions : List Session)
    (henv : ∀ k, env k ≠ DestroyOutcome.raise)
    (hp : ∀ s ∈ sessions, selectedForDestruction s = true → printSession s ≠ none) :
    (reaperMain env sessions).1.filterMap destroyedId
      = ((sessions.filter shutdownWriteStale) ++ (sessions.filter connectedStale)).map
          Session.session_id
    ∧ (reaperMain env sessions).2 = true := by
  have hp1 : ∀ s ∈ sessions, shutdownWriteStale s = true → printSession s ≠ none := by
    intro s hs h
    exact hp s hs (by simp [selectedForDestruction, h])
  have hp2 : ∀ s ∈ sessions, connectedStale s = true → printSession s ≠ none := by
    intro s hs h
    exact hp s hs (by simp [selectedForDestruction, h])
  have h1 := runPass_no_raise env shutdownWriteStale henv sessions 0 hp1
  have h2 := runPass_no_raise env connectedStale henv sessions
    (0 + (sessions.filter shutdownWriteStale).length) hp2
  unfold reaperMain
  rw [h1]
  simp only [if_true]
  rw [h2]
  simp only [passTrace, List.filterMap_append, List.map_append]
  rw [passTrace_destroyedId, passTrace_destroyedId]
  exact ⟨rfl, trivial⟩

/-- Witness for the amended C7: every destroy call reports an in-band
failure (non-empty error response, exit status 1), yet both selected
records still get their destroy command and the run completes. -/
theorem c7_destroy_continues_inband_witness :
    (reaperMain inbandFailEnv [sessSWStale, sessSWStale2]).1.filterMap destroyedId
      = [some "b", some "b2"]
    ∧ (reaperMain inbandFailEnv [sessSWStale, sessSWStale2]).2 = true := by
  have h := c7_destroy_continues_inband inbandFailEnv [sessSWStale, sessSWStale2]
    (fun k => by simp [inbandFailEnv]) (by decide)
  rw [h.1]
  exact ⟨by decide, h.2⟩

/-- A record either rule selects carries a decoded `last_xmit_ago`:
the Python 2 comparison against a still-`None` attribute is `False`. -/
theorem stale_has_last_xmit (s : Session)
    (h : shutdownWriteStale s = true ∨ connectedStale s = true) :
    s.last_xmit_ago ≠ none := by
  intro hn
  rcases h with h | h
  · simp [shutdownWriteStale, hn, tdLtOpt] at h
  · simp [connectedStale, hn, tdLtOpt] at h

/-- Every destroy command a pass issues belongs to a record of the
snapshot that the pass's rule selected. -/
theorem runPass_destroy_mem (env : Nat → DestroyOutcome) (pred : Session → Bool) :
    ∀ (sessions : List Session) (n : Nat) (id : Option String),
    Event.destroyCmd id ∈ (runPass env pred sessions n).1 →
    ∃ s, s ∈ sessions ∧ pred s = true ∧ s.session_id = id
  | [], n, id, h => by simp [runPass] at h
  | s :: rest, n, id, h => by
    by_cases hps : pred s = true
    · rw [runPass] at h
      rw [if_pos hps] at h
      cases hpp : printSession s with
      | none =>
        rw [hpp] at h
        simp at h
      | some pr =>
        rw [hpp] at h
        cases he : env n with
        | raise =>
          rw [he] at h
          simp at h
        | ok r c =>
          rw [he] at h
          simp only [List.mem_cons] at h
          rcases h with h | h | h
          · cases h
          · exact ⟨s, List.mem_cons_self s rest, hps, (Event.destroyCmd.injEq _ _).mp h.symm⟩
          · obtain ⟨x, hx, hpx, hid⟩ := runPass_destroy_mem env pred rest (n + 1) id h
            exact ⟨x, List.mem_cons_of_mem s hx, hpx, hid⟩
    · have hps' : pred s = false := by
        revert hps
        cases pred s <;> simp
      rw [runPass] at h
      rw [if_neg (by simp [hps'])] at h
      obtain ⟨x, hx, hpx, hid⟩ := runPass_destroy_mem env pred rest n id h
      exact ⟨x, List.mem_cons_of_mem s hx, hpx, hid⟩

/-- C10: a record whose line carried no `last_xmit_ago_ms` key (so
`last_xmit_ago` is still unset) is selected by neither rule, whatever
its state, and in no run — whatever the destroy outcomes — is a destroy
command issued for a record without a decoded `last_xmit_ago`. -/
theorem c10_unset_last_xmit_never_destroyed :
    (∀ s : Session, s.last_xmit_ago = none →
        shutdownWriteStale s = false ∧ connectedStale s = false)
    ∧ ∀ (env : Nat → DestroyOutcome) (sessions : List Session) (id : Option String),
        Event.destroyCmd id ∈ (reaperMain env sessions).1 →
        ∃ s, s ∈ sessions ∧ s.session_id = id ∧ s.last_xmit_ago ≠ none := by
  constructor
  · intro s h
    constructor
    · simp [shutdownWriteStale, h, tdLtOpt]
    · simp [connectedStale, h, tdLtOpt]
  · intro env sessions id h
    unfold reaperMain at h
    dsimp only at h
    split at h
    · simp only [List.mem_append] at h
      rcases h with h | h
      · obtain ⟨s, hs, hpred, hid⟩ := runPass_destroy_mem env shutdownWriteStale sessions 0 id h
        exact ⟨s, hs, hid, stale_has_last_xmit s (Or.inl hpred)⟩
      · obtain ⟨s, hs, hpred, hid⟩ := runPass_destroy_mem env connectedStale sessions _ id h
        exact ⟨s, hs, hid, stale_has_last_xmit s (Or.inr hpred)⟩
    · obtain ⟨s, hs, hpred, hid⟩ := runPass_destroy_mem env shutdownWriteStale sessions 0 id h
      exact ⟨s, hs, hid, stale_has_last_xmit s (Or.inl hpred)⟩

/-- Witness for C10: the unset record is not selected, and the destroy
command observed in a concrete run belongs to a record with a decoded
`last_xmit_ago`. -/
theorem c10_unset_last_xmit_never_destroyed_witness :
    shutdownWriteStale sessNoXmit = false
    ∧ ∃ s, s ∈ [sessNoXmit, sessSWStale] ∧ s.session_id = some "b"
        ∧ s.last_xmit_ago ≠ none := by
  constructor
  · exact (c10_unset_last_xmit_never_destroyed.1 sessNoXmit rfl).1
  · exact c10_unset_last_xmit_never_destroyed.2 okEnv [sessNoXmit, sessSWStale]
      (some "b") (by decide)

/-- `keyLe` is transitive. -/
theorem keyLe_trans {α : Type} {κ : Type} [LinearOrder κ] (key : α → κ) :
    ∀ (a b c : α), keyLe key a b → keyLe key b c → keyLe key a c := by
  intro a b c hab hbc
  simp only [keyLe, decide_eq_true_eq] at hab hbc ⊢
  exact le_trans hab hbc

/-- `keyLe` is total. -/
theorem keyLe_total {α : Type} {κ : Type} [LinearOrder κ] (key : α → κ) :
    ∀ (a b : α), keyLe key a b || keyLe key b a := by
  intro a b
  simp only [keyLe, Bool.or_eq_true, decide_eq_true_eq]
  exact le_total (key a) (key b)

/-- Stability of the ascending sort, in filter form: the records whose
sort key equals any fixed value come out in exactly their input order. -/
theorem mergeSort_filter_key {α : Type} {κ : Type} [LinearOrder κ]
    (key : α → κ) (v : List α) (k : κ) :
    ((v.mergeSort (keyLe key)).filter fun x => decide (key x = k))
      = v.filter fun x => decide (key x = k) := by
  have hpw : (v.filter fun x => decide (key x = k)).Pairwise
      (fun a b => keyLe key a b = true) := by
    apply List.pairwise_of_forall_mem_list
    intro a ha b hb
    have ha' : key a = k := by simpa using List.of_mem_filter ha
    have hb' : key b = k := by simpa using List.of_mem_filter hb
    simp [keyLe, ha', hb']
  have hsub : List.Sublist (v.filter fun x => decide (key x = k))
      (v.mergeSort (keyLe key)) :=
    List.sublist_mergeSort (keyLe_trans key) (keyLe_total key) hpw (List.filter_sublist v)
  have hsub2 : List.Sublist (v.filter fun x => decide (key x = k))
      ((v.mergeSort (keyLe key)).filter fun x => decide (key x = k)) := by
    have hmono := hsub.filter (fun x => decide (key x = k))
    have hall : ∀ a ∈ (v.filter fun x => decide (key x = k)), decide (key a = k) = true := by
      intro a ha
      have : key a = k := by simpa using List.of_mem_filter ha
      simp [this]
    rwa [List.filter_eq_self.mpr hall] at hmono
  have hlen : ((v.mergeSort (keyLe key)).filter fun x => decide (key x = k)).length
      = (v.filter fun x => decide (key x = k)).length :=
    ((List.mergeSort_perm v (keyLe key)).filter _).length_eq
  exact (hsub2.eq_of_length hlen.symm).symm

/-- Stability in filter form for `pySorted`, both directions. -/
theorem pySorted_filter_key {α : Type} {κ : Type} [LinearOrder κ]
    (key : α → κ) (rev : Bool) (v : List α) (k : κ) :
    ((pySorted key rev v).filter fun x => decide (key x = k))
      = v.filter fun x => decide (key x = k) := by
  cases rev with
  | false => exact mergeSort_filter_key key v k
  | true =>
    show (((v.reverse.mergeSort (keyLe key)).reverse).filter fun x => decide (key x = k))
        = v.filter fun x => decide (key x = k)
    rw [List.filter_reverse, mergeSort_filter_key key v.reverse k, List.filter_reverse,
      List.reverse_reverse]

/-- `pySorted` permutes its input. -/
theorem pySorted_perm {α : Type} {κ : Type} [LinearOrder κ]
    (key : α → κ) (rev : Bool) (v : List α) :
    (pySorted key rev v).Perm v := by
  cases rev with
  | false => exact List.mergeSort_perm v (keyLe key)
  | true =>
    show ((v.reverse.mergeSort (keyLe key)).reverse).Perm v
    exact ((List.reverse_perm _).trans (List.mergeSort_perm _ _)).trans (List.reverse_perm v)

/-- `pySorted` is sorted ascending when `rev = false`. -/
theorem pySorted_sorted_asc {α : Type} {κ : Type} [LinearOrder κ]
    (key : α → κ) (v : List α) :
    (pySorted key false v).Pairwise (fun a b => key a ≤ key b) := by
  show (v.mergeSort (keyLe key)).Pairwise (fun a b => key a ≤ key b)
  have h := List.sorted_mergeSort (keyLe_trans key) (keyLe_total key) v
  exact h.imp fun hab => by simpa [keyLe] using hab

/-- `pySorted` is sorted descending when `rev = true`. -/
theorem pySorted_sorted_desc {α : Type} {κ : Type} [LinearOrder κ]
    (key : α → κ) (v : List α) :
    (pySorted key true v).Pairwise (fun a b => key b ≤ key a) := by
  show ((v.reverse.mergeSort (keyLe key)).reverse).Pairwise (fun a b => key b ≤ key a)
  rw [List.pairwise_reverse]
  have h := List.sorted_mergeSort (keyLe_trans key) (keyLe_total key) v.reverse
  exact h.imp fun hab => by simpa [keyLe] using hab

/-- C8: `sorted_from_expr` permutes the snapshot; it is stable — for
every key value, the records carrying that value keep their snapshot
order — and a leading `-` yields the descending order while its absence
yields the ascending order (ties keeping snapshot order either way). -/
theorem c8_sorted_from_expr_stable {α : Type} {κ : Type} [LinearOrder κ]
    (getter : String → α → κ) (v : List α) (expr : String) :
    ((sorted_from_expr getter v expr).Perm v)
    ∧ (∀ k : κ, ((sorted_from_expr getter v expr).filter
          fun x => decide (getter (exprField expr) x = k))
        = v.filter fun x => decide (getter (exprField expr) x = k))
    ∧ (pyStartsWithDash expr = false →
        (sorted_from_expr getter v expr).Pairwise
          (fun a b => getter (exprField expr) a ≤ getter (exprField expr) b))
    ∧ (pyStartsWithDash expr = true →
        (sorted_from_expr getter v expr).Pairwise
          (fun a b => getter (exprField expr) b ≤ getter (exprField expr) a)) := by
  by_cases hd : pyStartsWithDash expr = true
  · have he : exprField expr = pyDropFirst expr := by simp [exprField, hd]
    have hs : sorted_from_expr getter v expr = pySorted (getter (pyDropFirst expr)) true v := by
      simp [sorted_from_expr, hd]
    refine ⟨?_, ?_, ?_, ?_⟩
    · rw [hs]
      exact pySorted_perm _ _ _
    · intro k
      rw [hs, he]
      exact pySorted_filter_key _ _ _ _
    · intro hfalse
      rw [hd] at hfalse
      cases hfalse
    · intro _
      rw [hs, he]
      exact pySorted_sorted_desc _ _
  · have hd' : pyStartsWithDash expr = false := by
      revert hd
      cases pyStartsWithDash expr <;> simp
    have he : exprField expr = expr := by simp [exprField, hd']
    have hs : sorted_from_expr getter v expr = pySorted (getter expr) false v := by
      simp [sorted_from_expr, hd']
    refine ⟨?_, ?_, ?_, ?_⟩
    · rw [hs]
      exact pySorted_perm _ _ _
    · intro k
      rw [hs, he]
      exact pySorted_filter_key _ _ _ _
    · intro _
      rw [hs, he]
      exact pySorted_sorted_asc _ _
    · intro htrue
      rw [hd'] at htrue
      cases htrue

/-- Witness for C8 at a concrete list and the descending expression
`-f`: ties keep snapshot order and the output is sorted descending. -/
theorem c8_sorted_from_expr_stable_witness :
    (((sorted_from_expr pairFst pairList "-f").filter
        fun x => decide (pairFst (exprField "-f") x = 1))
      = pairList.filter fun x => decide (pairFst (exprField "-f") x = 1))
    ∧ (sorted_from_expr pairFst pairList "-f").Pairwise
        (fun a b => pairFst (exprField "-f") b ≤ pairFst (exprField "-f") a) := by
  have h := c8_sorted_from_expr_stable pairFst pairList "-f"
  exact ⟨h.2.1 1, h.2.2.2 rfl⟩
